import Mathlib

/-!
A verification development for the nydus layer cache and merge pipeline of
this repository (files `cache/nydus.go` and the nydus build-cache fragment).

The Go code is shallowly embedded as pure Lean functions:

* side effects on the content store become explicit state passing over a
  `ContentStore` value and a trace of `StoreOp` operations;
* side effects on a layer's metadata (SetString/GetString, linkBlob,
  setBlob) become explicit state passing over a `RefState` value;
* external collaborators that are not part of this repository fragment
  (the content-store engine, the nydus converter library, the go-digest
  library, gzip) are modelled at their interface, as explained on each
  definition;
* fallible Go calls return `Except GoErr` values, and injected failures of
  external calls are supplied through small environment records.
-/

/-- Errors, mirroring Go's error values as used by the embedded fragment:
`notFound` stands for containerd's errdefs.ErrNotFound, `alreadyExists`
for errdefs.ErrAlreadyExists, `msg` for a fmt.Errorf message, and `wrap`
for github.com/pkg/errors.Wrap(f) with its message. -/
inductive GoErr
  | notFound
  | alreadyExists
  | msg (s : String)
  | wrap (s : String) (e : GoErr)
deriving Repr, DecidableEq

/-- Model of errdefs.IsAlreadyExists: true on ErrAlreadyExists, looking
through error wrapping (errors.Is unwraps wrapped causes). -/
def isAlreadyExists : GoErr → Bool
  | .alreadyExists => true
  | .wrap _ e => isAlreadyExists e
  | _ => false

/-- Association-list lookup with first-entry-wins semantics; models a Go
string map (whose keys are unique) as well as the newest-wins key/value
metadata store of a cache ref. -/
def lookupStr (k : String) : List (String × String) → Option String
  | [] => none
  | (k2, v) :: rest => if k2 = k then some v else lookupStr k rest

/-- OCI descriptor (ocispecs.Descriptor), restricted to the fields this
fragment reads or writes. A digest is carried as its Go string form
(go-digest's digest.Digest is a string type). A nil Go annotations map is
`none`. -/
structure Descriptor where
  mediaType : String := ""
  digest : String := ""
  size : Int := 0
  annotations : Option (List (String × String)) := none
deriving Repr, DecidableEq

/-- Lookup of an annotation key on a descriptor; `none` both when the map
is nil and when the key is absent. -/
def annotLookup (d : Descriptor) (k : String) : Option String :=
  match d.annotations with
  | none => none
  | some m => lookupStr k m

/-- Constant from the nydus-snapshotter converter library:
nydusify.MediaTypeNydusBlob. -/
def MediaTypeNydusBlob : String := "application/vnd.oci.image.layer.nydus.blob.v1"

/-- Constant from the nydus-snapshotter converter library:
nydusify.LayerAnnotationNydusBlob. -/
def LayerAnnotationNydusBlob : String := "containerd.io/snapshot/nydus-blob"

/-- Constant from the nydus-snapshotter converter library:
nydusify.LayerAnnotationNydusBootstrap. -/
def LayerAnnotationNydusBootstrap : String := "containerd.io/snapshot/nydus-bootstrap"

/-- Constant from the nydus-snapshotter converter library:
nydusify.LayerAnnotationNydusBlobIDs. -/
def LayerAnnotationNydusBlobIDs : String := "containerd.io/snapshot/nydus-blob-ids"

/-- Constant from buildkit's labels package: the containerd uncompressed
digest label key (`containerdUncompressed` in cache/nydus.go's scope). -/
def containerdUncompressed : String := "containerd.io/uncompressed"

/-- Constant from the OCI image spec: ocispecs.MediaTypeImageLayerGzip. -/
def MediaTypeImageLayerGzip : String := "application/vnd.oci.image.layer.v1.tar+gzip"

/-- Embedding of isNydusBlob (cache/nydus.go lines 23-30): nil annotations
map means false; otherwise the media type must be the nydus blob media
type and the nydus-blob annotation key must be present. -/
def isNydusBlob (desc : Descriptor) : Bool :=
  match desc.annotations with
  | none => false
  | some annos =>
    let hasMediaType := desc.mediaType == MediaTypeNydusBlob
    let hasAnno := (lookupStr LayerAnnotationNydusBlob annos).isSome
    hasMediaType && hasAnno

/-- C10: for every descriptor, the nydus-blob predicate is true exactly
when the media type equals the nydus blob media type and the annotations
map is present and contains the nydus-blob annotation key; in particular
a nil annotations map yields false rather than a failure. -/
theorem isNydusBlob_characterization (d : Descriptor) :
    (isNydusBlob d = true ↔
      d.mediaType = MediaTypeNydusBlob ∧
        ∃ m, d.annotations = some m ∧ (lookupStr LayerAnnotationNydusBlob m).isSome = true)
    ∧ (d.annotations = none → isNydusBlob d = false) := by
  constructor
  · unfold isNydusBlob
    cases h : d.annotations with
    | none => simp
    | some m =>
      simp only [Bool.and_eq_true, beq_iff_eq]
      constructor
      · rintro ⟨h1, h2⟩
        exact ⟨h1, m, rfl, h2⟩
      · rintro ⟨h1, m2, hm2, h2⟩
        injection hm2 with hm
        subst hm
        exact ⟨h1, h2⟩
  · intro h
    unfold isNydusBlob
    rw [h]

/-- Witness for C10 at a concrete descriptor whose annotations map is nil. -/
theorem isNydusBlob_characterization_witness :
    isNydusBlob { mediaType := MediaTypeNydusBlob, digest := "d", size := 1, annotations := none } = false :=
  (isNydusBlob_characterization _).2 rfl

/-- Split a character list at the first colon, returning the parts before
and after it, or `none` when no colon occurs. Helper for the go-digest
model below. -/
def breakColon : List Char → Option (List Char × List Char)
  | [] => none
  | c :: rest =>
    if c = ':' then some ([], rest)
    else (breakColon rest).map (fun p => (c :: p.1, p.2))

/-- Lowercase-hexadecimal character test, as required of a sha256 digest
encoding by the go-digest library. -/
def isHexLowerChar (c : Char) : Bool :=
  (('0' ≤ c && c ≤ '9') || ('a' ≤ c && c ≤ 'f'))

/-- Model of the go-digest library's digest.Digest.Validate (an external
collaborator of this fragment): a digest string is valid when it has the
form `algorithm:encoded` with a registered algorithm and a well-formed
encoded part; the only algorithm this fragment produces is sha256, whose
encoded part is 64 lowercase-hex characters. -/
def validateDigest (d : String) : Bool :=
  match breakColon d.toList with
  | some (a, e) => (a == "sha256".toList) && (e.length == 64) && e.all isHexLowerChar
  | none => false

/-- Model of the go-digest library's digest.Digest.Hex (Encoded): the
substring after the first colon, or the whole string when it has no colon
(Go's d[i+1:] with IndexRune returning -1). -/
def hexOfDigest (d : String) : String :=
  match breakColon d.toList with
  | some p => String.mk p.2
  | none => d

/-- Constant keyCachedNydusBootstrap from the build-cache fragment. -/
def keyCachedNydusBootstrap : String := "cache.nydus-bootstrap"

/-- Constant keyCachedNydusBlob from the build-cache fragment. -/
def keyCachedNydusBlob : String := "cache.nydus-blob"

/-- Constant valueCachedEmptySha256 from the build-cache fragment: the
sentinel recorded when a layer legitimately has no data blob. -/
def valueCachedEmptySha256 : String := "sha256:none"

/-- Compression types consumed by this fragment (buildkit's
compression.NydusBootstrap and compression.NydusBlob). -/
inductive CompressionType
  | nydusBootstrap
  | nydusBlob
deriving Repr, DecidableEq

/-- State of one immutableRef (layer identity) as this fragment touches
it: the string key/value metadata written by SetString and read by
GetString (newest entry first), the blobs linked for retrieval by
compression type, and the primary blob registered by setBlob. -/
structure RefState where
  kv : List (String × String) := []
  linked : List (CompressionType × Descriptor) := []
  primary : Option Descriptor := none
deriving Repr, DecidableEq

/-- GetString on a ref: the recorded value, or the empty string when the
key was never set (Go's zero value). -/
def getString (st : RefState) (k : String) : String :=
  (lookupStr k st.kv).getD ""

/-- SetString on a ref: records the value for the key (newest wins). -/
def setString (st : RefState) (k v : String) : RefState :=
  { st with kv := (k, v) :: st.kv }

/-- First descriptor linked under the given compression type. -/
def findLinked (ct : CompressionType) : List (CompressionType × Descriptor) → Option Descriptor
  | [] => none
  | (c, d) :: rest => if c = ct then some d else findLinked ct rest

/-- Modelled from the spec: getBlobWithCompression lives in the
surrounding cache manager, outside this fragment; per the spec it returns
the layer's blob descriptor retrievable under the requested compression
type, and fails when no such artifact can be located. In this model a
descriptor is retrievable under a compression type after linkBlob linked
it there. -/
def getBlobWithCompression (st : RefState) (ct : CompressionType) : Except GoErr Descriptor :=
  match findLinked ct st.linked with
  | some d => .ok d
  | none => .error .notFound

/-- Embedding of buildLayer.getArtifact (build-cache fragment lines
35-47), parameterised over the external getBlobWithCompression lookup:
an invalid recorded digest string is a not-found; any failure of the
lookup is mapped to not-found; otherwise the located descriptor is
returned. -/
def getArtifact (gbc : CompressionType → Except GoErr Descriptor)
    (dgst : String) (ct : CompressionType) : Except GoErr Descriptor :=
  if validateDigest dgst then
    match gbc ct with
    | .ok d => .ok d
    | .error _ => .error .notFound
  else
    .error .notFound

/-- Embedding of buildLayer.GetCache (build-cache fragment lines 53-74),
parameterised over the external getBlobWithCompression lookup `gbc` and
the layer's GetString function `gs`. -/
def GetCache (gbc : CompressionType → Except GoErr Descriptor)
    (gs : String → String) : Except GoErr (Descriptor × List Descriptor) :=
  match getArtifact gbc (gs keyCachedNydusBootstrap) CompressionType.nydusBootstrap with
  | .error _ => .error .notFound
  | .ok bootstrapDesc =>
    if gs keyCachedNydusBlob = "" then .error .notFound
    else if gs keyCachedNydusBlob = valueCachedEmptySha256 then .ok (bootstrapDesc, [])
    else
      match getArtifact gbc (gs keyCachedNydusBlob) CompressionType.nydusBlob with
      | .error _ => .error .notFound
      | .ok blobDesc => .ok (bootstrapDesc, [blobDesc])

/-- GetCache run against a concrete ref state, with the external lookups
instantiated by that state. -/
def GetCacheSt (st : RefState) : Except GoErr (Descriptor × List Descriptor) :=
  GetCache (getBlobWithCompression st) (getString st)

/-- Failure injection for the three fallible external registration calls
made by SetCache: setBlob, linkBlob of the bootstrap, linkBlob of the
data blob. `none` means the call succeeds. -/
structure LinkEnv where
  setBlobErr : Option GoErr := none
  linkBootstrapErr : Option GoErr := none
  linkDataErr : Option GoErr := none
deriving Repr, DecidableEq

/-- Environment in which every external registration call succeeds. -/
def okLinkEnv : LinkEnv := {}

/-- Embedding of buildLayer.SetCache (build-cache fragment lines 77-99).
State effects of the external calls are Modelled from the spec: setBlob
registers the bootstrap as the layer's primary cached blob, and linkBlob
makes a descriptor retrievable under its compression type (bootstrap
respectively data blob). A failed call leaves the state as it was and the
whole operation returns the wrapped cause; mutations already performed
persist, as in Go. The result is the final ref state together with the
returned error, if any. -/
def SetCache (env : LinkEnv) (st : RefState) (bootstrapDesc : Descriptor)
    (blobDescs : List Descriptor) : RefState × Option GoErr :=
  match env.setBlobErr with
  | some e => (st, some (GoErr.wrap "set nydus bootstrap" e))
  | none =>
    let st1 : RefState := { st with primary := some bootstrapDesc }
    match env.linkBootstrapErr with
    | some e => (st1, some (GoErr.wrap "set nydus blob" e))
    | none =>
      let st2 : RefState :=
        { st1 with linked := (CompressionType.nydusBootstrap, bootstrapDesc) :: st1.linked }
      let st3 : RefState := setString st2 keyCachedNydusBootstrap bootstrapDesc.digest
      match blobDescs with
      | blob :: _ =>
        match env.linkDataErr with
        | some e => (st3, some (GoErr.wrap "set nydus blob" e))
        | none =>
          let st4 : RefState :=
            { st3 with linked := (CompressionType.nydusBlob, blob) :: st3.linked }
          (setString st4 keyCachedNydusBlob blob.digest, none)
      | [] =>
        (setString st3 keyCachedNydusBlob valueCachedEmptySha256, none)

example : validateDigest "sha256:aaaaaaaaaaaaaaaaaaaaaaaaaaaaaaaaaaaaaaaaaaaaaaaaaaaaaaaaaaaaaaaa" = true := by decide
example : validateDigest "sha256:none" = false := by decide
example : validateDigest "" = false := by decide
example : hexOfDigest "sha256:ab" = "ab" := by decide

/-- A valid digest string is not the empty string. -/
theorem validateDigest_ne_empty {d : String} (h : validateDigest d = true) : d ≠ "" := by
  intro hd
  subst hd
  exact absurd h (by decide)

/-- A valid digest string is not the empty-blob sentinel (its encoded part
is not 64 hex characters). -/
theorem validateDigest_ne_sentinel {d : String} (h : validateDigest d = true) :
    d ≠ valueCachedEmptySha256 := by
  intro hd
  subst hd
  exact absurd h (by decide)

/-- C2: for every layer identity, a successful store of a bootstrap
descriptor and blob descriptors followed by a lookup on the same layer
returns the same bootstrap descriptor (hence the same bootstrap digest);
if a blob descriptor was stored, the lookup also returns that blob
descriptor, and if no blob was stored the lookup succeeds with an empty
blob-descriptor list via the sentinel path. Descriptors are well formed
per the data model: their digests are content hashes, so they pass digest
validation. -/
theorem setCache_getCache_roundtrip (st : RefState) (b blob : Descriptor)
    (rest : List Descriptor) (hb : validateDigest b.digest = true) :
    (validateDigest blob.digest = true →
        (SetCache okLinkEnv st b (blob :: rest)).2 = none ∧
        GetCacheSt (SetCache okLinkEnv st b (blob :: rest)).1 = .ok (b, [blob]))
    ∧ ((SetCache okLinkEnv st b []).2 = none ∧
        GetCacheSt (SetCache okLinkEnv st b []).1 = .ok (b, [])) := by
  constructor
  · intro hblob
    refine ⟨rfl, ?_⟩
    simp [GetCacheSt, GetCache, getArtifact, getBlobWithCompression, findLinked,
      getString, lookupStr, setString, SetCache, okLinkEnv,
      keyCachedNydusBlob, keyCachedNydusBootstrap, hb, hblob,
      validateDigest_ne_empty hblob, validateDigest_ne_sentinel hblob]
  · refine ⟨rfl, ?_⟩
    simp [GetCacheSt, GetCache, getArtifact, getBlobWithCompression, findLinked,
      getString, lookupStr, setString, SetCache, okLinkEnv,
      keyCachedNydusBlob, keyCachedNydusBootstrap, valueCachedEmptySha256, hb]

/-- A concrete valid sha256 digest string used by witnesses. -/
def wDigestA : String := "sha256:aaaaaaaaaaaaaaaaaaaaaaaaaaaaaaaaaaaaaaaaaaaaaaaaaaaaaaaaaaaaaaaa"

/-- A second concrete valid sha256 digest string used by witnesses. -/
def wDigestB : String := "sha256:bbbbbbbbbbbbbbbbbbbbbbbbbbbbbbbbbbbbbbbbbbbbbbbbbbbbbbbbbbbbbbbb"

/-- A concrete bootstrap descriptor used by witnesses. -/
def wBootDesc : Descriptor :=
  { mediaType := MediaTypeImageLayerGzip, digest := wDigestA, size := 10, annotations := none }

/-- A concrete data-blob descriptor used by witnesses. -/
def wBlobDesc : Descriptor :=
  { mediaType := MediaTypeNydusBlob, digest := wDigestB, size := 20, annotations := none }

/-- Witness for C2: the round trip evaluated on a fresh layer with one
concrete bootstrap descriptor and one concrete blob descriptor. -/
theorem setCache_getCache_roundtrip_witness :
    (SetCache okLinkEnv {} wBootDesc [wBlobDesc]).2 = none ∧
    GetCacheSt (SetCache okLinkEnv {} wBootDesc [wBlobDesc]).1 = .ok (wBootDesc, [wBlobDesc]) :=
  (setCache_getCache_roundtrip {} wBootDesc wBlobDesc [] (by decide)).1 (by decide)

/-- C3: for every layer, cache lookup returns the uniform not-found error
(never a propagated low-level store error) whenever: it fails at all; no
bootstrap digest string is recorded; the recorded bootstrap digest fails
validity checks; the bootstrap artifact cannot be located; no blob-cache
string is recorded; or the blob artifact cannot be located under a
recorded non-sentinel value. When the recorded blob value is the
sentinel, lookup succeeds with the bootstrap descriptor and an empty
blob-descriptor list. The external store lookup `gbc` and the recorded
strings `gs` are arbitrary. -/
theorem getCache_uniform_notFound (gbc : CompressionType → Except GoErr Descriptor)
    (gs : String → String) :
    (∀ e, GetCache gbc gs = .error e → e = .notFound)
    ∧ (gs keyCachedNydusBootstrap = "" → GetCache gbc gs = .error .notFound)
    ∧ (validateDigest (gs keyCachedNydusBootstrap) = false →
        GetCache gbc gs = .error .notFound)
    ∧ (∀ e2, gbc CompressionType.nydusBootstrap = .error e2 →
        GetCache gbc gs = .error .notFound)
    ∧ (gs keyCachedNydusBlob = "" → GetCache gbc gs = .error .notFound)
    ∧ (∀ e2, gs keyCachedNydusBlob ≠ "" → gs keyCachedNydusBlob ≠ valueCachedEmptySha256 →
        gbc CompressionType.nydusBlob = .error e2 → GetCache gbc gs = .error .notFound)
    ∧ (∀ bdesc, validateDigest (gs keyCachedNydusBootstrap) = true →
        gbc CompressionType.nydusBootstrap = .ok bdesc →
        gs keyCachedNydusBlob = valueCachedEmptySha256 →
        GetCache gbc gs = .ok (bdesc, [])) := by
  refine ⟨?_, ?_, ?_, ?_, ?_, ?_, ?_⟩
  · intro e he
    unfold GetCache at he
    split at he
    · injection he with h
      exact h.symm
    · split at he
      · injection he with h
        exact h.symm
      · split at he
        · exact absurd he (by simp)
        · split at he
          · injection he with h
            exact h.symm
          · exact absurd he (by simp)
  · intro h
    simp [GetCache, getArtifact, h, (show validateDigest "" = false from by decide)]
  · intro h
    simp [GetCache, getArtifact, h]
  · intro e2 h
    by_cases hv : validateDigest (gs keyCachedNydusBootstrap) = true
    · simp [GetCache, getArtifact, h, hv]
    · simp [GetCache, getArtifact, hv]
  · intro h
    cases hga : getArtifact gbc (gs keyCachedNydusBootstrap) CompressionType.nydusBootstrap with
    | error e => simp [GetCache, hga]
    | ok bd => simp [GetCache, hga, h]
  · intro e2 h1 h2 h3
    cases hga : getArtifact gbc (gs keyCachedNydusBootstrap) CompressionType.nydusBootstrap with
    | error e => simp [GetCache, hga]
    | ok bd =>
      by_cases hv : validateDigest (gs keyCachedNydusBlob) = true
      · simp only [GetCache, hga, h3, hv, if_true, if_neg h1, if_neg h2, getArtifact, if_pos]
        split <;> rfl
      · simp only [GetCache, hga, if_neg h1, if_neg h2, getArtifact, if_neg hv]
        split <;> rfl
  · intro bdesc hv hok hs
    simp [GetCache, getArtifact, hv, hok, hs,
      (show valueCachedEmptySha256 ≠ "" from by decide)]

/-- Witness for C3: on a layer with no recorded strings and a failing
store lookup, the cache lookup is a uniform not-found. -/
theorem getCache_uniform_notFound_witness :
    GetCache (fun _ => .error (GoErr.msg "disk failure")) (fun _ => "") = .error .notFound :=
  (getCache_uniform_notFound _ _).2.1 rfl

/-- C6: for every fresh layer (no string recorded yet), the store
operation fails with the wrapped cause whenever the primary bootstrap
registration or either link operation fails, and after such a failed
store a lookup on the resulting layer state is a miss: no partially
cached layer is observable. -/
theorem setCache_failure_atomic (env : LinkEnv) (st : RefState) (b : Descriptor)
    (blobDescs : List Descriptor) (e : GoErr)
    (hf1 : getString st keyCachedNydusBootstrap = "")
    (hf2 : getString st keyCachedNydusBlob = "") :
    (env.setBlobErr = some e →
        (SetCache env st b blobDescs).2 = some (GoErr.wrap "set nydus bootstrap" e) ∧
        GetCacheSt (SetCache env st b blobDescs).1 = .error .notFound)
    ∧ (env.setBlobErr = none → env.linkBootstrapErr = some e →
        (SetCache env st b blobDescs).2 = some (GoErr.wrap "set nydus blob" e) ∧
        GetCacheSt (SetCache env st b blobDescs).1 = .error .notFound)
    ∧ (∀ blob rest, blobDescs = blob :: rest → env.setBlobErr = none →
        env.linkBootstrapErr = none → env.linkDataErr = some e →
        (SetCache env st b blobDescs).2 = some (GoErr.wrap "set nydus blob" e) ∧
        GetCacheSt (SetCache env st b blobDescs).1 = .error .notFound) := by
  have hmiss : ∀ st2 : RefState, getString st2 keyCachedNydusBootstrap = "" →
      GetCacheSt st2 = .error .notFound := by
    intro st2 h
    simp [GetCacheSt, GetCache, getArtifact, h,
      (show validateDigest "" = false from by decide)]
  refine ⟨?_, ?_, ?_⟩
  · intro h
    refine ⟨?_, ?_⟩
    · simp only [SetCache, h]
    · simp only [SetCache, h]
      exact hmiss st hf1
  · intro h1 h2
    refine ⟨?_, ?_⟩
    · simp only [SetCache, h1, h2]
    · simp only [SetCache, h1, h2]
      exact hmiss _ hf1
  · intro blob rest hbd h1 h2 h3
    subst hbd
    refine ⟨?_, ?_⟩
    · simp only [SetCache, h1, h2, h3]
    · simp only [SetCache, h1, h2, h3]
      simp only [getString, keyCachedNydusBlob, keyCachedNydusBootstrap] at hf2
      by_cases hv : validateDigest b.digest = true
      · simp [GetCacheSt, GetCache, getArtifact, getBlobWithCompression, findLinked,
          getString, lookupStr, setString, keyCachedNydusBlob, keyCachedNydusBootstrap,
          hv, hf2]
      · simp [GetCacheSt, GetCache, getArtifact, getString, lookupStr, setString,
          keyCachedNydusBlob, keyCachedNydusBootstrap, hv]

/-- Witness for C6: a failing primary registration on a fresh layer. -/
theorem setCache_failure_atomic_witness :
    (SetCache { setBlobErr := some (GoErr.msg "boom") } {} wBootDesc []).2 =
      some (GoErr.wrap "set nydus bootstrap" (GoErr.msg "boom")) ∧
    GetCacheSt (SetCache { setBlobErr := some (GoErr.msg "boom") } {} wBootDesc []).1 =
      .error .notFound :=
  (setCache_failure_atomic { setBlobErr := some (GoErr.msg "boom") } {} wBootDesc []
    (GoErr.msg "boom") rfl rfl).1 rfl

/-- C9: the cache interface handles at most one data blob per layer: a
successful lookup returns a blob-descriptor list of length exactly zero
or exactly one, and a store given more than one blob descriptor behaves
identically to a store given only the first one (the rest are silently
ignored). -/
theorem cache_single_blob_interface :
    (∀ (env : LinkEnv) (st : RefState) (b d : Descriptor) (ds : List Descriptor),
        SetCache env st b (d :: ds) = SetCache env st b [d])
    ∧ (∀ gbc gs p, GetCache gbc gs = .ok p → p.2 = [] ∨ ∃ x, p.2 = [x]) := by
  constructor
  · intro env st b d ds
    rcases env with ⟨sb, lb, ld⟩
    cases sb <;> cases lb <;> cases ld <;> rfl
  · intro gbc gs p hp
    unfold GetCache at hp
    split at hp
    · exact absurd hp (by simp)
    · split at hp
      · exact absurd hp (by simp)
      · split at hp
        · injection hp with h
          left
          rw [← h]
        · split at hp
          · exact absurd hp (by simp)
          · injection hp with h
            right
            exact ⟨_, by rw [← h]⟩

/-- Witness for C9: a sentinel-path lookup returning an empty blob list. -/
theorem cache_single_blob_interface_witness :
    ((wBootDesc, ([] : List Descriptor)).2 = [] ∨
      ∃ x, (wBootDesc, ([] : List Descriptor)).2 = [x]) :=
  cache_single_blob_interface.2 (fun _ => .ok wBootDesc)
    (fun k => if k = keyCachedNydusBlob then valueCachedEmptySha256 else wDigestA)
    (wBootDesc, []) (by rfl)

/-- Per-layer artifact descriptor pair returned by the external packer's
Build call; this fragment reads only the Bootstrap field. -/
structure PackerDescriptor where
  bootstrap : Descriptor := {}
deriving Repr, DecidableEq

/-- Embedding of the collection loop of computeNydusBlobChain
(build-cache fragment lines 146-160): walk the builder's output
descriptors with their index and append the Bootstrap of the descriptor
whose index equals layerCount - 1, computed in Go int arithmetic (hence
the comparison over Int). -/
def collectTrailing (layerCount : Nat) : Nat → List PackerDescriptor → List Descriptor
  | _, [] => []
  | idx, d :: rest =>
    (if (idx : Int) = (layerCount : Int) - 1 then [d.bootstrap] else []) ++
      collectTrailing layerCount (idx + 1) rest

/-- Embedding of computeNydusBlobChain (build-cache fragment lines
118-163). The layer walk is summarised by the number of walked layers
`layerCount`; the external packer constructor and its Build invocation
are oracles supplying either their result or their failure. -/
def computeNydusBlobChain (layerCount : Nat) (packerNew : Except GoErr Unit)
    (buildRes : Except GoErr (List PackerDescriptor)) : Except GoErr (List Descriptor) :=
  match packerNew with
  | .error e => .error (GoErr.wrap "create nydus packer" e)
  | .ok _ =>
    match buildRes with
    | .error e => .error (GoErr.wrap "build nydus layers" e)
    | .ok descs => .ok (collectTrailing layerCount 0 descs)

/-- Indices strictly below the target index contribute nothing to the
collection loop. -/
theorem collectTrailing_nil (L : Nat) :
    ∀ (ds : List PackerDescriptor) (idx : Nat), idx + ds.length < L →
      collectTrailing L idx ds = [] := by
  intro ds
  induction ds with
  | nil => intro idx _; rfl
  | cons d rest ih =>
    intro idx h
    have hlt : idx + 1 + rest.length < L := by
      simp only [List.length_cons] at h
      omega
    have hne : ((idx : Int) = (L : Int) - 1) = False := by
      simp only [eq_iff_iff, iff_false]
      intro hc
      omega
    simp only [collectTrailing, hne, if_false, List.nil_append]
    exact ih (idx + 1) hlt

/-- The collection loop distributes over a trailing append. -/
theorem collectTrailing_append (L : Nat) :
    ∀ (ds : List PackerDescriptor) (d : PackerDescriptor) (idx : Nat),
      collectTrailing L idx (ds ++ [d]) =
        collectTrailing L idx ds ++ collectTrailing L (idx + ds.length) [d] := by
  intro ds
  induction ds with
  | nil => intro d idx; simp [collectTrailing]
  | cons c rest ih =>
    intro d idx
    have hstep : collectTrailing L idx ((c :: rest) ++ [d]) =
        (if (idx : Int) = (L : Int) - 1 then [c.bootstrap] else []) ++
          collectTrailing L (idx + 1) (rest ++ [d]) := rfl
    have hstep2 : collectTrailing L idx (c :: rest) =
        (if (idx : Int) = (L : Int) - 1 then [c.bootstrap] else []) ++
          collectTrailing L (idx + 1) rest := rfl
    have harith : idx + 1 + rest.length = idx + (c :: rest).length := by
      simp only [List.length_cons]
      omega
    rw [hstep, hstep2, ih d (idx + 1), List.append_assoc, harith]

/-- C8: for every successfully built chain, the chain builder's result
contains exactly the synthetic trailing artifact: the bootstrap
descriptor of the final layer, and no intermediate per-layer bootstraps;
a failing Build invocation (and a failing packer construction) yields an
error and no partial artifact list. -/
theorem computeNydusBlobChain_trailing_only (ds : List PackerDescriptor)
    (d : PackerDescriptor) (n : Nat) (e : GoErr)
    (pn : Except GoErr Unit) (br : Except GoErr (List PackerDescriptor)) :
    (computeNydusBlobChain (ds.length + 1) (.ok ()) (.ok (ds ++ [d])) = .ok [d.bootstrap])
    ∧ (computeNydusBlobChain n pn (.error e) = .error (GoErr.wrap "build nydus layers" e) ∨
        ∃ e2, pn = .error e2 ∧
          computeNydusBlobChain n pn (.error e) = .error (GoErr.wrap "create nydus packer" e2))
    ∧ (computeNydusBlobChain n (.error e) br = .error (GoErr.wrap "create nydus packer" e)) := by
  refine ⟨?_, ?_, ?_⟩
  · simp only [computeNydusBlobChain]
    rw [collectTrailing_append (ds.length + 1) ds d 0]
    rw [collectTrailing_nil (ds.length + 1) ds 0 (by omega)]
    rw [Nat.zero_add]
    have hcond : ((ds.length : Int) = ((ds.length + 1 : Nat) : Int) - 1) := by
      push_cast
      omega
    simp only [List.nil_append, collectTrailing, if_pos hcond, List.append_nil]
  · cases pn with
    | error e2 => exact Or.inr ⟨e2, rfl, rfl⟩
    | ok u => exact Or.inl rfl
  · rfl

/-- Witness for C8 on a concrete two-layer chain: only the second layer's
bootstrap is surfaced. -/
theorem computeNydusBlobChain_trailing_only_witness :
    computeNydusBlobChain 2 (.ok ()) (.ok [{ bootstrap := wBlobDesc }, { bootstrap := wBootDesc }]) =
      .ok [wBootDesc] := by
  exact (computeNydusBlobChain_trailing_only [{ bootstrap := wBlobDesc }]
    { bootstrap := wBootDesc } 0 GoErr.notFound (.ok ()) (.ok [])).1

/-- Byte streams flowing through the merge pipeline. -/
abbrev Bytes := List Nat

/-- Hex character table for the digest model. -/
def hexChar (k : Nat) : Char :=
  "0123456789abcdef".toList.getD k 'x'

/-- Fixed-width (two characters per byte) lowercase-hex encoding of a
byte stream, as produced by go-digest's sha256 hex encoding. -/
def hexChars : Bytes → List Char
  | [] => []
  | n :: rest => hexChar (n / 16 % 16) :: hexChar (n % 16) :: hexChars rest

/-- Character list of the `sha256:` digest prefix. -/
def sha256PrefixChars : List Char := ['s', 'h', 'a', '2', '5', '6', ':']

/-- Idealised model of go-digest's sha256 digesting (digest.SHA256
.Digester over a byte stream, and the digest a content-store writer
computes over the bytes written to it): a collision-free content hash is
modelled by an injective encoding of the content itself, rendered in the
usual `sha256:hex` string form. -/
def digestOf (bs : Bytes) : String :=
  String.mk (sha256PrefixChars ++ hexChars bs)

/-- Idealised model of compress/gzip compression as used by the merge
pipeline: a deterministic stream transformation whose output starts with
the two gzip magic bytes, so the compressed stream always differs from
the uncompressed stream. -/
def gzipModel (bs : Bytes) : Bytes :=
  (31 : Nat) :: (139 : Nat) :: bs

/-- Model of Go's json.Marshal on a []string value (the blob-IDs list):
a compact JSON array of quoted strings; escaping is irrelevant because
the marshalled values are hex digest strings. Marshalling a string slice
cannot fail in Go, so no error case is modelled. -/
def jsonMarshalStrings (ids : List String) : String :=
  "[" ++ String.intercalate "," (ids.map (fun s => "\"" ++ s ++ "\"")) ++ "]"

/-- The content-addressed store shared by the merge pipeline: the list of
committed blobs, addressed by their digest. -/
structure ContentStore where
  contents : List Bytes
deriving Repr, DecidableEq

/-- Content-store operations performed by the merge pipeline, traced so
that theorems can state which store accesses happened. -/
inductive StoreOp
  | readerAt (dgst : String)
  | openWriter (ref : String)
  | commit (dgst : String)
  | info (dgst : String)
deriving Repr, DecidableEq

/-- Whether the store holds a blob under the given digest. -/
def storeHas (st : ContentStore) (d : String) : Bool :=
  st.contents.any (fun b => digestOf b = d)

/-- Model of the content-store writer's Commit: committing a blob whose
digest is already present fails with ErrAlreadyExists and leaves the
store unchanged; otherwise the blob is added. -/
def storeCommit (st : ContentStore) (bs : Bytes) : Option GoErr × ContentStore :=
  if storeHas st (digestOf bs) then (some GoErr.alreadyExists, st)
  else (none, ⟨st.contents ++ [bs]⟩)

/-- Model of the content store's Info: the size of the blob recorded
under the digest, or not-found. -/
def storeInfo (st : ContentStore) (d : String) : Except GoErr Int :=
  match st.contents.find? (fun b => digestOf b = d) with
  | some b => .ok ((b.length : Nat) : Int)
  | none => .error .notFound

/-- One immutableRef as consumed by mergeNydus: the outcome of resolving
its data blob under the requested compression
(getBlobWithCompressionWithRetry), the outcome of opening a reader over
that blob, and the chain ID used for the staging reference. -/
structure MergeRef where
  blobRes : Except GoErr Descriptor
  readerErr : Option GoErr := none
  chainID : String := ""

/-- External-collaborator environment of the merge pipeline: the outcome
of content.OpenWriter, and the nydusify.Merge operation producing the
merged uncompressed tar stream from the ordered layer digests (its
failure is propagated through the pipe into the copy step). -/
structure MergeEnv where
  openWriterErr : Option GoErr := none
  mergeOp : List String → Except GoErr Bytes

/-- Embedding of the per-layer resolution loop of mergeNydus
(cache/nydus.go lines 58-76): resolve each layer's blob descriptor,
open a reader over it, and collect the descriptors in chain order,
together with the trace of store reads. Each failure is wrapped as in
the source. -/
def resolveLayers : List MergeRef → Except GoErr (List Descriptor) × List StoreOp
  | [] => (.ok [], [])
  | r :: rest =>
    match r.blobRes with
    | .error e => (.error (GoErr.wrap "get compression blob" e), [])
    | .ok d =>
      match r.readerErr with
      | some e => (.error (GoErr.wrap "get reader for compression blob" e),
          [StoreOp.readerAt d.digest])
      | none =>
        match resolveLayers rest with
        | (.error e, ops) => (.error e, StoreOp.readerAt d.digest :: ops)
        | (.ok ds, ops) => (.ok (d :: ds), StoreOp.readerAt d.digest :: ops)

/-- The final descriptor constructed by mergeNydus (cache/nydus.go lines
129-140): the committed compressed digest and size, the gzip image-layer
media type, and the uncompressed-digest, bootstrap-marker and blob-IDs
annotations. -/
def mergedDesc (compressedDgst : String) (sz : Int) (uncompressedDgst : String)
    (blobIDs : List String) : Descriptor :=
  { digest := compressedDgst, size := sz, mediaType := MediaTypeImageLayerGzip,
    annotations := some [(containerdUncompressed, uncompressedDgst),
      (LayerAnnotationNydusBootstrap, "true"),
      (LayerAnnotationNydusBlobIDs, jsonMarshalStrings blobIDs)] }

/-- Embedding of the tail of mergeNydus after a successful commit
(cache/nydus.go lines 119-142): look up the committed blob's size and
build the final descriptor. -/
def finishMerge (st : ContentStore) (compressedDgst uncompressedDgst : String)
    (blobIDs : List String) : Except GoErr Descriptor :=
  match storeInfo st compressedDgst with
  | .error e => .error (GoErr.wrap "get info from content store" e)
  | .ok sz => .ok (mergedDesc compressedDgst sz uncompressedDgst blobIDs)

/-- Embedding of the compress-and-commit phase of mergeNydus
(cache/nydus.go lines 97-117): gzip the merged stream while digesting the
uncompressed bytes, commit the compressed bytes under their digest, and
treat an already-exists commit failure as success; any other commit
failure aborts. -/
def mergeCommitPhase (st : ContentStore) (ops : List StoreOp) (blobIDs : List String)
    (merged : Bytes) : Except GoErr Descriptor × ContentStore × List StoreOp :=
  let compressedBytes := gzipModel merged
  let compressedDgst := digestOf compressedBytes
  let uncompressedDgst := digestOf merged
  match storeCommit st compressedBytes with
  | (some e, st1) =>
    if isAlreadyExists e then
      (finishMerge st1 compressedDgst uncompressedDgst blobIDs, st1,
        ops ++ [StoreOp.commit compressedDgst, StoreOp.info compressedDgst])
    else
      (.error (GoErr.wrap "commit to content store" e), st1,
        ops ++ [StoreOp.commit compressedDgst])
  | (none, st1) =>
    (finishMerge st1 compressedDgst uncompressedDgst blobIDs, st1,
      ops ++ [StoreOp.commit compressedDgst, StoreOp.info compressedDgst])

/-- Embedding of mergeNydus (cache/nydus.go lines 49-143): reject an
empty chain; resolve every layer's blob in chain order; open the staging
writer named after the terminal chain ID; run the external merge through
the pipe into the gzip-and-digest fan-out; then commit and build the
final descriptor. The result is the returned descriptor or error, the
final content store, and the trace of store operations. -/
def mergeNydus (env : MergeEnv) (st : ContentStore) (refs : List MergeRef) :
    Except GoErr Descriptor × ContentStore × List StoreOp :=
  if refs.length = 0 then
    (.error (GoErr.msg "refs can\x27t be empty"), st, [])
  else
    match resolveLayers refs with
    | (.error e, ops) => (.error e, st, ops)
    | (.ok descs, ops) =>
      let chainID := ((refs.getLast?).map (fun r => r.chainID)).getD ""
      let ops1 := ops ++ [StoreOp.openWriter ("nydus-merge-" ++ chainID)]
      match env.openWriterErr with
      | some e => (.error (GoErr.wrap "open content store writer" e), st, ops1)
      | none =>
        match env.mergeOp (descs.map (fun d => d.digest)) with
        | .error e =>
          (.error (GoErr.wrap "copy bootstrap targz into content store"
            (GoErr.wrap "merge nydus bootstrap" e)), st, ops1)
        | .ok merged =>
          mergeCommitPhase st ops1 (descs.map (fun d => hexOfDigest d.digest)) merged

/-- C5: calling the merge pipeline with an empty layer chain fails
immediately with the structural error of the source, leaves the content
store untouched, and performs no content-store operation at all. -/
theorem mergeNydus_empty_refs (env : MergeEnv) (st : ContentStore) :
    mergeNydus env st [] = (.error (GoErr.msg "refs can\x27t be empty"), st, []) := rfl

/-- When every layer resolves and every reader opens, the resolution loop
returns exactly the resolved descriptors in chain order. -/
theorem resolveLayers_ok : ∀ (refs : List MergeRef) (descs : List Descriptor),
    refs.map (fun r => r.blobRes) = descs.map Except.ok →
    (∀ r ∈ refs, r.readerErr = none) →
    ∃ ops, resolveLayers refs = (.ok descs, ops) := by
  intro refs
  induction refs with
  | nil =>
    intro descs h1 _
    cases descs with
    | nil => exact ⟨[], rfl⟩
    | cons d ds => simp at h1
  | cons r rest ih =>
    intro descs h1 h2
    cases descs with
    | nil => simp at h1
    | cons d ds =>
      simp only [List.map_cons, List.cons.injEq] at h1
      obtain ⟨hops, hres⟩ := ih ds h1.2 (fun x hx => h2 x (List.mem_cons_of_mem r hx))
      refine ⟨StoreOp.readerAt d.digest :: hops, ?_⟩
      simp only [resolveLayers, h1.1, h2 r (List.mem_cons_self r rest), hres]

/-- Appending a blob to the store makes its digest present. -/
theorem storeHas_append_self (l : List Bytes) (bs : Bytes) :
    storeHas ⟨l ++ [bs]⟩ (digestOf bs) = true := by
  simp [storeHas, List.any_append]

/-- When the compressed digest is already present, the commit phase takes
the already-exists path, leaves the store unchanged and proceeds to the
final descriptor. -/
theorem mergeCommitPhase_already (st : ContentStore) (ops : List StoreOp)
    (ids : List String) (merged : Bytes)
    (h : storeHas st (digestOf (gzipModel merged)) = true) :
    mergeCommitPhase st ops ids merged =
      (finishMerge st (digestOf (gzipModel merged)) (digestOf merged) ids, st,
        ops ++ [StoreOp.commit (digestOf (gzipModel merged)),
          StoreOp.info (digestOf (gzipModel merged))]) := by
  unfold mergeCommitPhase storeCommit
  simp [h, isAlreadyExists]

/-- The commit phase always ends in the final-descriptor step over a
store that holds the compressed blob, whether it was freshly committed
or already present. -/
theorem mergeCommitPhase_eq (st : ContentStore) (ops : List StoreOp)
    (ids : List String) (merged : Bytes) :
    ∃ st', mergeCommitPhase st ops ids merged =
        (finishMerge st' (digestOf (gzipModel merged)) (digestOf merged) ids, st',
          ops ++ [StoreOp.commit (digestOf (gzipModel merged)),
            StoreOp.info (digestOf (gzipModel merged))]) ∧
      storeHas st' (digestOf (gzipModel merged)) = true := by
  by_cases h : storeHas st (digestOf (gzipModel merged)) = true
  · exact ⟨st, mergeCommitPhase_already st ops ids merged h, h⟩
  · refine ⟨⟨st.contents ++ [gzipModel merged]⟩, ?_, storeHas_append_self _ _⟩
    unfold mergeCommitPhase storeCommit
    simp [h]

/-- On a store holding the digest, the final step returns the descriptor
with that digest, the compressed-layer media type and the three
annotations from the source. -/
theorem finishMerge_ok (st : ContentStore) (d ud : String) (ids : List String)
    (h : storeHas st d = true) :
    ∃ sz, finishMerge st d ud ids = .ok (mergedDesc d sz ud ids) := by
  have hsome : (st.contents.find? (fun b => digestOf b = d)).isSome := by
    rw [List.find?_isSome]
    simpa [storeHas, List.any_eq_true] using h
  cases hf : st.contents.find? (fun b => digestOf b = d) with
  | none => rw [hf] at hsome; simp at hsome
  | some b =>
    refine ⟨((b.length : Nat) : Int), ?_⟩
    unfold finishMerge storeInfo
    rw [hf]

/-- Master lemma for the successful merge run: under per-layer resolution
success, reader success, writer success and merge success, the pipeline
returns the final descriptor, the resulting store holds the compressed
blob, and running the pipeline again from the resulting store returns
the very same descriptor and store. -/
theorem mergeNydus_success (env : MergeEnv) (st : ContentStore) (refs : List MergeRef)
    (descs : List Descriptor) (merged : Bytes)
    (h0 : refs ≠ [])
    (h1 : refs.map (fun r => r.blobRes) = descs.map Except.ok)
    (h2 : ∀ r ∈ refs, r.readerErr = none)
    (h3 : env.openWriterErr = none)
    (h4 : env.mergeOp (descs.map (fun d => d.digest)) = .ok merged) :
    ∃ sz st' ops ops2,
      mergeNydus env st refs =
        (.ok (mergedDesc (digestOf (gzipModel merged)) sz (digestOf merged)
          (descs.map (fun dd => hexOfDigest dd.digest))), st', ops) ∧
      storeHas st' (digestOf (gzipModel merged)) = true ∧
      mergeNydus env st' refs =
        (.ok (mergedDesc (digestOf (gzipModel merged)) sz (digestOf merged)
          (descs.map (fun dd => hexOfDigest dd.digest))), st', ops2) := by
  obtain ⟨ops0, hres⟩ := resolveLayers_ok refs descs h1 h2
  have hlen0 : ¬ (refs.length = 0) := by
    intro hc
    exact h0 (List.length_eq_zero.mp hc)
  have hred : ∀ s : ContentStore, mergeNydus env s refs =
      mergeCommitPhase s
        (ops0 ++ [StoreOp.openWriter
          ("nydus-merge-" ++ (((refs.getLast?).map (fun r => r.chainID)).getD ""))])
        (descs.map (fun dd => hexOfDigest dd.digest)) merged := by
    intro s
    unfold mergeNydus
    rw [if_neg hlen0, hres]
    simp only [h3, h4]
  obtain ⟨st', hphase, hhas⟩ := mergeCommitPhase_eq st
    (ops0 ++ [StoreOp.openWriter
      ("nydus-merge-" ++ (((refs.getLast?).map (fun r => r.chainID)).getD ""))])
    (descs.map (fun dd => hexOfDigest dd.digest)) merged
  obtain ⟨sz, hfin⟩ := finishMerge_ok st' (digestOf (gzipModel merged)) (digestOf merged)
    (descs.map (fun dd => hexOfDigest dd.digest)) hhas
  refine ⟨sz, st',
    ops0 ++ [StoreOp.openWriter
        ("nydus-merge-" ++ (((refs.getLast?).map (fun r => r.chainID)).getD ""))] ++
      [StoreOp.commit (digestOf (gzipModel merged)),
        StoreOp.info (digestOf (gzipModel merged))],
    ops0 ++ [StoreOp.openWriter
        ("nydus-merge-" ++ (((refs.getLast?).map (fun r => r.chainID)).getD ""))] ++
      [StoreOp.commit (digestOf (gzipModel merged)),
        StoreOp.info (digestOf (gzipModel merged))],
    ?_, hhas, ?_⟩
  · rw [hred st, hphase, hfin]
  · rw [hred st', mergeCommitPhase_already _ _ _ _ hhas, hfin]

/-- The hex encoding of a byte stream has two characters per byte. -/
theorem hexChars_length (bs : Bytes) : (hexChars bs).length = 2 * bs.length := by
  induction bs with
  | nil => rfl
  | cons n rest ih =>
    simp only [hexChars, List.length_cons, ih]
    omega

/-- The digest of a stream differs from the digest of its gzip
compression: the gzip framing prepends two magic bytes, so under a
collision-free hash the two digests cannot coincide. -/
theorem digestOf_gzip_ne (bs : Bytes) : digestOf bs ≠ digestOf (gzipModel bs) := by
  intro h
  have hd : sha256PrefixChars ++ hexChars bs = sha256PrefixChars ++ hexChars (gzipModel bs) := by
    have hdata := congrArg String.data h
    simpa [digestOf] using hdata
  have hl := congrArg List.length hd
  simp only [List.length_append, hexChars_length, gzipModel, List.length_cons] at hl
  omega

/-- The hex forms of the resolved blob digests are, position by position,
the hex forms of each layer's resolution result. -/
theorem map_hex_of_resolved : ∀ (rs : List MergeRef) (dss : List Descriptor),
    rs.map (fun r => r.blobRes) = dss.map Except.ok →
    rs.map (fun r => r.blobRes.map (fun dd => hexOfDigest dd.digest)) =
      (dss.map (fun dd => hexOfDigest dd.digest)).map Except.ok := by
  intro rs
  induction rs with
  | nil =>
    intro dss h
    cases dss with
    | nil => rfl
    | cons d ds => simp at h
  | cons r rest ih =>
    intro dss h
    cases dss with
    | nil => simp at h
    | cons d ds =>
      simp only [List.map_cons, List.cons.injEq] at h
      simp only [List.map_cons, List.cons.injEq]
      exact ⟨by rw [h.1]; rfl, ih ds h.2⟩

/-- C1: for every non-empty chain whose layers all resolve, the merged
bootstrap descriptor carries a blob-ID annotation whose marshalled list
is exactly the hex forms of the layers' resolved data-blob digests, one
entry per layer in chain order (empty data blobs included, since the
loop never filters), with length equal to the chain length. -/
theorem mergeNydus_blobIDs_chain_order (env : MergeEnv) (st : ContentStore)
    (refs : List MergeRef) (descs : List Descriptor) (merged : Bytes)
    (h0 : refs ≠ [])
    (h1 : refs.map (fun r => r.blobRes) = descs.map Except.ok)
    (h2 : ∀ r ∈ refs, r.readerErr = none)
    (h3 : env.openWriterErr = none)
    (h4 : env.mergeOp (descs.map (fun d => d.digest)) = .ok merged) :
    ∃ d st' ops,
      mergeNydus env st refs = (.ok d, st', ops) ∧
      annotLookup d LayerAnnotationNydusBlobIDs =
        some (jsonMarshalStrings (descs.map (fun dd => hexOfDigest dd.digest))) ∧
      (descs.map (fun dd => hexOfDigest dd.digest)).length = refs.length ∧
      refs.map (fun r => r.blobRes.map (fun dd => hexOfDigest dd.digest)) =
        (descs.map (fun dd => hexOfDigest dd.digest)).map Except.ok := by
  obtain ⟨sz, st', ops, ops2, hrun, hhas, hrun2⟩ :=
    mergeNydus_success env st refs descs merged h0 h1 h2 h3 h4
  refine ⟨_, st', ops, hrun, ?_, ?_, map_hex_of_resolved refs descs h1⟩
  · simp [mergedDesc, annotLookup, lookupStr, containerdUncompressed,
      LayerAnnotationNydusBootstrap, LayerAnnotationNydusBlobIDs]
  · have hlen := congrArg List.length h1
    simp only [List.length_map] at hlen
    simp only [List.length_map]
    exact hlen.symm

/-- A layer descriptor standing for a layer whose data blob is empty. -/
def wEmptyDesc : Descriptor :=
  { mediaType := MediaTypeNydusBlob, digest := digestOf [], size := 0, annotations := none }

/-- Concrete merge ref resolving to the concrete blob descriptor. -/
def wMergeRef : MergeRef := { blobRes := .ok wBlobDesc, readerErr := none, chainID := "chain-a" }

/-- Concrete merge ref resolving to the empty-blob descriptor. -/
def wEmptyRef : MergeRef := { blobRes := .ok wEmptyDesc, readerErr := none, chainID := "chain-b" }

/-- Concrete merge environment whose external merge succeeds. -/
def wMergeEnv : MergeEnv := { openWriterErr := none, mergeOp := fun _ => .ok [7, 8, 9] }

/-- Concrete empty content store. -/
def wStore : ContentStore := ⟨[]⟩

/-- Witness for C1 on a concrete two-layer chain whose second layer has
an empty data blob. -/
theorem mergeNydus_blobIDs_chain_order_witness :
    ∃ d st' ops,
      mergeNydus wMergeEnv wStore [wMergeRef, wEmptyRef] = (.ok d, st', ops) ∧
      annotLookup d LayerAnnotationNydusBlobIDs =
        some (jsonMarshalStrings
          (([wBlobDesc, wEmptyDesc] : List Descriptor).map (fun dd => hexOfDigest dd.digest))) ∧
      (([wBlobDesc, wEmptyDesc] : List Descriptor).map (fun dd => hexOfDigest dd.digest)).length =
        ([wMergeRef, wEmptyRef] : List MergeRef).length ∧
      ([wMergeRef, wEmptyRef] : List MergeRef).map
          (fun r => r.blobRes.map (fun dd => hexOfDigest dd.digest)) =
        (([wBlobDesc, wEmptyDesc] : List Descriptor).map
          (fun dd => hexOfDigest dd.digest)).map Except.ok :=
  mergeNydus_blobIDs_chain_order wMergeEnv wStore [wMergeRef, wEmptyRef]
    [wBlobDesc, wEmptyDesc] [7, 8, 9] (by simp) rfl
    (by intro r hr
        simp only [List.mem_cons, List.mem_singleton] at hr
        rcases hr with hr | hr | hr
        · subst hr; rfl
        · subst hr; rfl
        · simp at hr)
    rfl rfl

/-- C4: an already-exists outcome of the commit is success, so merging
the same chain content again from the resulting store (where the
compressed blob is already present) succeeds and returns the identical
descriptor with the identical digest, leaving the store unchanged. -/
theorem mergeNydus_idempotent_alreadyExists (env : MergeEnv) (st : ContentStore)
    (refs : List MergeRef) (descs : List Descriptor) (merged : Bytes)
    (h0 : refs ≠ [])
    (h1 : refs.map (fun r => r.blobRes) = descs.map Except.ok)
    (h2 : ∀ r ∈ refs, r.readerErr = none)
    (h3 : env.openWriterErr = none)
    (h4 : env.mergeOp (descs.map (fun d => d.digest)) = .ok merged) :
    ∃ d st' ops ops2,
      mergeNydus env st refs = (.ok d, st', ops) ∧
      storeHas st' d.digest = true ∧
      mergeNydus env st' refs = (.ok d, st', ops2) := by
  obtain ⟨sz, st', ops, ops2, hrun, hhas, hrun2⟩ :=
    mergeNydus_success env st refs descs merged h0 h1 h2 h3 h4
  exact ⟨_, st', ops, ops2, hrun, hhas, hrun2⟩

/-- Witness for C4 on a concrete one-layer chain over an empty store. -/
theorem mergeNydus_idempotent_alreadyExists_witness :
    ∃ d st' ops ops2,
      mergeNydus wMergeEnv wStore [wMergeRef] = (.ok d, st', ops) ∧
      storeHas st' d.digest = true ∧
      mergeNydus wMergeEnv st' [wMergeRef] = (.ok d, st', ops2) :=
  mergeNydus_idempotent_alreadyExists wMergeEnv wStore [wMergeRef] [wBlobDesc] [7, 8, 9]
    (by simp) rfl
    (by intro r hr
        simp only [List.mem_singleton] at hr
        subst hr; rfl)
    rfl rfl

/-- C7: the descriptor returned by a successful merge has its digest
equal to the digest of the gzip-compressed bytes as committed to the
store, its media type set to the gzip image-layer type, and an
uncompressed-digest annotation equal to the digest of the merged stream
before compression, which differs from the committed digest. -/
theorem mergeNydus_descriptor_digests (env : MergeEnv) (st : ContentStore)
    (refs : List MergeRef) (descs : List Descriptor) (merged : Bytes)
    (h0 : refs ≠ [])
    (h1 : refs.map (fun r => r.blobRes) = descs.map Except.ok)
    (h2 : ∀ r ∈ refs, r.readerErr = none)
    (h3 : env.openWriterErr = none)
    (h4 : env.mergeOp (descs.map (fun d => d.digest)) = .ok merged) :
    ∃ d st' ops,
      mergeNydus env st refs = (.ok d, st', ops) ∧
      d.digest = digestOf (gzipModel merged) ∧
      storeHas st' d.digest = true ∧
      d.mediaType = MediaTypeImageLayerGzip ∧
      annotLookup d containerdUncompressed = some (digestOf merged) ∧
      digestOf merged ≠ d.digest := by
  obtain ⟨sz, st', ops, ops2, hrun, hhas, hrun2⟩ :=
    mergeNydus_success env st refs descs merged h0 h1 h2 h3 h4
  refine ⟨_, st', ops, hrun, rfl, hhas, rfl, ?_, digestOf_gzip_ne merged⟩
  simp [mergedDesc, annotLookup, lookupStr, containerdUncompressed]

/-- Witness for C7 on a concrete one-layer chain. -/
theorem mergeNydus_descriptor_digests_witness :
    ∃ d st' ops,
      mergeNydus wMergeEnv wStore [wMergeRef] = (.ok d, st', ops) ∧
      d.digest = digestOf (gzipModel [7, 8, 9]) ∧
      storeHas st' d.digest = true ∧
      d.mediaType = MediaTypeImageLayerGzip ∧
      annotLookup d containerdUncompressed = some (digestOf [7, 8, 9]) ∧
      digestOf [7, 8, 9] ≠ d.digest :=
  mergeNydus_descriptor_digests wMergeEnv wStore [wMergeRef] [wBlobDesc] [7, 8, 9]
    (by simp) rfl
    (by intro r hr
        simp only [List.mem_singleton] at hr
        subst hr; rfl)
    rfl rfl
